import Mathlib

/-!
Shallow embedding of the sensory repository (src/main.rs): an incremental
per-day statistics engine over time-stamped sensor readings.

Modelling conventions:
* `f32` values are modelled as exact rationals (`ℚ`); the structural
  invariants claimed by the spec (sum accumulation, full-scan max/min,
  positional median, mean = sum / len) are about the sequence of arithmetic
  operations performed, which the rational model reproduces operation for
  operation.  Rationals carry no NaN, so the no-NaN precondition on
  `partial_cmp(..).unwrap()` holds by construction.
* `chrono::NaiveDate` is modelled as an abstract day number (`Nat`); the code
  only ever compares dates for equality (and the sortedness precondition
  needs an order).
* Every Rust `unwrap()` / vector indexing that could panic is modelled with
  `Option`: `none` is the panic branch.
* `Vec::push` is modelled as appending a singleton; in-place mutation of the
  last ledger element (`last_mut`) is modelled as `dropLast ++ [updated]`.
-/

abbrev NaiveDate := Nat

/-- One parsed sensor reading: `SensorRecord<NaiveDate>` from src/main.rs. -/
structure SensorRecord where
  timestamp : NaiveDate
  temperature : ℚ
  humidity : ℚ
  dew_point : ℚ
  vpd : ℚ
deriving DecidableEq, Repr

/-- The fold performed by `iter().max_by(|x, y| x.partial_cmp(&y).unwrap())`:
`none` on an empty iterator, otherwise the running two-argument maximum. -/
def iterMax : List ℚ → Option ℚ
  | [] => none
  | x :: xs => some (xs.foldl max x)

/-- The fold performed by `iter().min_by(|x, y| x.partial_cmp(&y).unwrap())`. -/
def iterMin : List ℚ → Option ℚ
  | [] => none
  | x :: xs => some (xs.foldl min x)

/-- Per-day temperature accumulator `TemperatureStats` from src/main.rs. -/
structure TemperatureStats where
  max_temperature : ℚ
  min_temperature : ℚ
  mean_temperature : ℚ
  median_temperature : ℚ
  temperature_entries : List ℚ
  temperature_sum : ℚ
deriving DecidableEq, Repr

/-- Per-day humidity accumulator `HumidityStats` from src/main.rs. -/
structure HumidityStats where
  max_humidity : ℚ
  min_humidity : ℚ
  mean_humidity : ℚ
  median_humidity : ℚ
  humidity_entries : List ℚ
  humidity_sum : ℚ
deriving DecidableEq, Repr

/-- Per-day dew-point accumulator `DewPointStats` from src/main.rs. -/
structure DewPointStats where
  max_dew_point : ℚ
  min_dew_point : ℚ
  mean_dew_point : ℚ
  median_dew_point : ℚ
  dew_point_entries : List ℚ
  dew_point_sum : ℚ
deriving DecidableEq, Repr

/-- Per-day vapour-pressure-deficit accumulator `VPDStats` from src/main.rs. -/
structure VPDStats where
  max_vpd : ℚ
  min_vpd : ℚ
  mean_vpd : ℚ
  median_vpd : ℚ
  vpd_entries : List ℚ
  vpd_sum : ℚ
deriving DecidableEq, Repr

/-- One calendar day's aggregate `DaySummaryStats<NaiveDate>` from src/main.rs. -/
structure DaySummaryStats where
  date : NaiveDate
  temperature_stats : TemperatureStats
  humidity_stats : HumidityStats
  dew_point_stats : DewPointStats
  vpd_stats : VPDStats
  gdd : ℚ
deriving DecidableEq, Repr

/-- The static `GDD_THRESHOLD : f32 = 65.0` from src/main.rs. -/
def GDD_THRESHOLD : ℚ := 65

namespace DaySummaryStats

/-- `DaySummaryStats::from_record`: seed every accumulator from the single
reading and set `gdd = record.temperature - GDD_THRESHOLD`. -/
def from_record (record : SensorRecord) : DaySummaryStats :=
  let temperature_stats : TemperatureStats :=
    { max_temperature := record.temperature
      min_temperature := record.temperature
      mean_temperature := record.temperature
      median_temperature := record.temperature
      temperature_entries := [record.temperature]
      temperature_sum := record.temperature }
  let humidity_stats : HumidityStats :=
    { max_humidity := record.humidity
      min_humidity := record.humidity
      mean_humidity := record.humidity
      median_humidity := record.humidity
      humidity_entries := [record.humidity]
      humidity_sum := record.humidity }
  let dew_point_stats : DewPointStats :=
    { max_dew_point := record.dew_point
      min_dew_point := record.dew_point
      mean_dew_point := record.dew_point
      median_dew_point := record.dew_point
      dew_point_entries := [record.dew_point]
      dew_point_sum := record.dew_point }
  let vpd_stats : VPDStats :=
    { max_vpd := record.vpd
      min_vpd := record.vpd
      mean_vpd := record.vpd
      median_vpd := record.vpd
      vpd_entries := [record.vpd]
      vpd_sum := record.vpd }
  { date := record.timestamp
    temperature_stats := temperature_stats
    humidity_stats := humidity_stats
    dew_point_stats := dew_point_stats
    vpd_stats := vpd_stats
    gdd := record.temperature - GDD_THRESHOLD }

/-- `DaySummaryStats::calc_temperature_stats`: add to the running sum, push
the value, full-scan max/min, positional median at index `len / 2`, then
`mean = sum / len`.  `none` models the (unreachable) `unwrap` panics. -/
def calc_temperature_stats (self : DaySummaryStats) (record : SensorRecord) :
    Option DaySummaryStats :=
  let temperature_sum := self.temperature_stats.temperature_sum + record.temperature
  let temperature_entries :=
    self.temperature_stats.temperature_entries ++ [record.temperature]
  match iterMax temperature_entries, iterMin temperature_entries,
      temperature_entries[temperature_entries.length / 2]? with
  | some mx, some mn, some md =>
      some { self with temperature_stats :=
        { max_temperature := mx
          min_temperature := mn
          mean_temperature := temperature_sum / (temperature_entries.length : ℚ)
          median_temperature := md
          temperature_entries := temperature_entries
          temperature_sum := temperature_sum } }
  | _, _, _ => none

/-- `DaySummaryStats::calc_humidity_stats`. -/
def calc_humidity_stats (self : DaySummaryStats) (record : SensorRecord) :
    Option DaySummaryStats :=
  let humidity_sum := self.humidity_stats.humidity_sum + record.humidity
  let humidity_entries := self.humidity_stats.humidity_entries ++ [record.humidity]
  match iterMax humidity_entries, iterMin humidity_entries,
      humidity_entries[humidity_entries.length / 2]? with
  | some mx, some mn, some md =>
      some { self with humidity_stats :=
        { max_humidity := mx
          min_humidity := mn
          mean_humidity := humidity_sum / (humidity_entries.length : ℚ)
          median_humidity := md
          humidity_entries := humidity_entries
          humidity_sum := humidity_sum } }
  | _, _, _ => none

/-- `DaySummaryStats::calc_dew_point_stats`. -/
def calc_dew_point_stats (self : DaySummaryStats) (record : SensorRecord) :
    Option DaySummaryStats :=
  let dew_point_sum := self.dew_point_stats.dew_point_sum + record.dew_point
  let dew_point_entries := self.dew_point_stats.dew_point_entries ++ [record.dew_point]
  match iterMax dew_point_entries, iterMin dew_point_entries,
      dew_point_entries[dew_point_entries.length / 2]? with
  | some mx, some mn, some md =>
      some { self with dew_point_stats :=
        { max_dew_point := mx
          min_dew_point := mn
          mean_dew_point := dew_point_sum / (dew_point_entries.length : ℚ)
          median_dew_point := md
          dew_point_entries := dew_point_entries
          dew_point_sum := dew_point_sum } }
  | _, _, _ => none

/-- `DaySummaryStats::calc_vpd_stats`. -/
def calc_vpd_stats (self : DaySummaryStats) (record : SensorRecord) :
    Option DaySummaryStats :=
  let vpd_sum := self.vpd_stats.vpd_sum + record.vpd
  let vpd_entries := self.vpd_stats.vpd_entries ++ [record.vpd]
  match iterMax vpd_entries, iterMin vpd_entries,
      vpd_entries[vpd_entries.length / 2]? with
  | some mx, some mn, some md =>
      some { self with vpd_stats :=
        { max_vpd := mx
          min_vpd := mn
          mean_vpd := vpd_sum / (vpd_entries.length : ℚ)
          median_vpd := md
          vpd_entries := vpd_entries
          vpd_sum := vpd_sum } }
  | _, _, _ => none

/-- `DaySummaryStats::calc_growing_degrees_day`:
`gdd = mean_temperature - GDD_THRESHOLD`. -/
def calc_growing_degrees_day (self : DaySummaryStats) : DaySummaryStats :=
  { self with gdd := self.temperature_stats.mean_temperature - GDD_THRESHOLD }

/-- The same-date branch of `DaySummaries::add_record` (the spec's `absorb`):
the four `calc_*_stats` calls followed by `calc_growing_degrees_day`, applied
to the last ledger element in place. -/
def absorb (self : DaySummaryStats) (record : SensorRecord) :
    Option DaySummaryStats := do
  let s1 ← calc_temperature_stats self record
  let s2 ← calc_humidity_stats s1 record
  let s3 ← calc_dew_point_stats s2 record
  let s4 ← calc_vpd_stats s3 record
  pure (calc_growing_degrees_day s4)

end DaySummaryStats

open DaySummaryStats

/-- `DaySummaries::add_record`: inspect only the last summary; absorb in
place on a date match, otherwise push a fresh summary. -/
def add_record (self : List DaySummaryStats) (record : SensorRecord) :
    Option (List DaySummaryStats) :=
  match self.getLast? with
  | some day_summary_stats =>
      if day_summary_stats.date = record.timestamp then
        (absorb day_summary_stats record).map (fun d => self.dropLast ++ [d])
      else
        some (self ++ [from_record record])
  | none => some (self ++ [from_record record])

/-- Fold a record stream into a ledger starting from a given ledger state. -/
def runFrom (days : List DaySummaryStats) (rs : List SensorRecord) :
    Option (List DaySummaryStats) :=
  rs.foldlM add_record days

/-- The main loop over the sensor CSV: fold every record into an initially
empty `DaySummaries(Vec::new())`. -/
def runLedger (rs : List SensorRecord) : Option (List DaySummaryStats) :=
  runFrom [] rs

/-- The report loop of `main`: `total_gdd += day_summary.gdd` then emit
`total_gdd`, producing the cumulative `gdd` column in ledger order. -/
def gddColumn (days : List DaySummaryStats) : List ℚ :=
  (days.foldl
    (fun acc day_summary =>
      let total_gdd := acc.1 + day_summary.gdd
      (total_gdd, acc.2 ++ [total_gdd]))
    ((0 : ℚ), ([] : List ℚ))).2

/-!
### Spec-side predicates

`statInv` renders the RunningStat invariant of spec §3 in the spec's own
vocabulary: `sum == Σ entries`, `max == max(entries)`, `min == min(entries)`,
`mean == sum/len(entries)`, `median == entries[floor(len(entries)/2)]`.
-/

/-- Spec notion: `m` is the maximum of the list `l`. -/
def isMaxOf (m : ℚ) (l : List ℚ) : Prop := m ∈ l ∧ ∀ y ∈ l, y ≤ m

/-- Spec notion: `m` is the minimum of the list `l`. -/
def isMinOf (m : ℚ) (l : List ℚ) : Prop := m ∈ l ∧ ∀ y ∈ l, m ≤ y

/-- The RunningStat invariant of spec §3, for one field's accumulator state. -/
def statInv (entries : List ℚ) (s mx mn me md : ℚ) : Prop :=
  s = entries.sum ∧ isMaxOf mx entries ∧ isMinOf mn entries ∧
    me = s / (entries.length : ℚ) ∧ entries[entries.length / 2]? = some md

/-- The RunningStat invariant instantiated at the temperature accumulator. -/
def tempInv (t : TemperatureStats) : Prop :=
  statInv t.temperature_entries t.temperature_sum t.max_temperature
    t.min_temperature t.mean_temperature t.median_temperature

/-- The RunningStat invariant instantiated at the humidity accumulator. -/
def humInv (t : HumidityStats) : Prop :=
  statInv t.humidity_entries t.humidity_sum t.max_humidity
    t.min_humidity t.mean_humidity t.median_humidity

/-- The RunningStat invariant instantiated at the dew-point accumulator. -/
def dewInv (t : DewPointStats) : Prop :=
  statInv t.dew_point_entries t.dew_point_sum t.max_dew_point
    t.min_dew_point t.mean_dew_point t.median_dew_point

/-- The RunningStat invariant instantiated at the vpd accumulator. -/
def vpdInv (t : VPDStats) : Prop :=
  statInv t.vpd_entries t.vpd_sum t.max_vpd t.min_vpd t.mean_vpd t.median_vpd

/-- The full per-day invariant: all four accumulators satisfy `statInv`. -/
def dayInv (d : DaySummaryStats) : Prop :=
  tempInv d.temperature_stats ∧ humInv d.humidity_stats ∧
    dewInv d.dew_point_stats ∧ vpdInv d.vpd_stats

/-! ### Helper lemmas about the max/min folds -/

theorem iterMax_eq_max? (l : List ℚ) : iterMax l = l.max? := by
  cases l <;> rfl

theorem iterMin_eq_min? (l : List ℚ) : iterMin l = l.min? := by
  cases l <;> rfl

theorem iterMax_isMaxOf {l : List ℚ} {m : ℚ} (h : iterMax l = some m) :
    isMaxOf m l := by
  rw [iterMax_eq_max?] at h
  exact (@List.max?_eq_some_iff ℚ m _ _ ⟨fun h1 h2 => le_antisymm h1 h2⟩
    (fun a => le_refl a) (fun a b => max_choice a b)
    (fun _ _ _ => max_le_iff) l).mp h

theorem iterMin_isMinOf {l : List ℚ} {m : ℚ} (h : iterMin l = some m) :
    isMinOf m l := by
  rw [iterMin_eq_min?] at h
  exact (@List.min?_eq_some_iff ℚ m _ _ ⟨fun h1 h2 => le_antisymm h1 h2⟩
    (fun a => le_refl a) (fun a b => min_choice a b)
    (fun _ _ _ => le_min_iff) l).mp h

theorem iterMax_concat_isSome (l : List ℚ) (v : ℚ) :
    ∃ m, iterMax (l ++ [v]) = some m := by
  cases l with
  | nil => exact ⟨v, rfl⟩
  | cons x xs => exact ⟨(xs ++ [v]).foldl max x, rfl⟩

theorem iterMin_concat_isSome (l : List ℚ) (v : ℚ) :
    ∃ m, iterMin (l ++ [v]) = some m := by
  cases l with
  | nil => exact ⟨v, rfl⟩
  | cons x xs => exact ⟨(xs ++ [v]).foldl min x, rfl⟩

theorem getElem?_concat_half_isSome (l : List ℚ) (v : ℚ) :
    ∃ m, (l ++ [v])[(l ++ [v]).length / 2]? = some m := by
  have hlt : (l ++ [v]).length / 2 < (l ++ [v]).length := by
    have hlen : (l ++ [v]).length = l.length + 1 := by simp
    rw [hlen]
    exact Nat.div_lt_self (Nat.succ_pos _) Nat.one_lt_two
  exact ⟨_, List.getElem?_eq_getElem hlt⟩

/-! ### Characterisation of the four `calc_*_stats` updates -/

theorem calc_temperature_stats_isSome (self : DaySummaryStats)
    (record : SensorRecord) : (calc_temperature_stats self record).isSome := by
  obtain ⟨mx, hmx⟩ :=
    iterMax_concat_isSome self.temperature_stats.temperature_entries record.temperature
  obtain ⟨mn, hmn⟩ :=
    iterMin_concat_isSome self.temperature_stats.temperature_entries record.temperature
  obtain ⟨md, hmd⟩ :=
    getElem?_concat_half_isSome self.temperature_stats.temperature_entries record.temperature
  simp only [calc_temperature_stats, hmx, hmn, hmd, Option.isSome_some]

theorem calc_temperature_stats_spec (self : DaySummaryStats)
    (record : SensorRecord) (s' : DaySummaryStats)
    (h : calc_temperature_stats self record = some s') :
    s'.date = self.date ∧ s'.humidity_stats = self.humidity_stats ∧
      s'.dew_point_stats = self.dew_point_stats ∧
      s'.vpd_stats = self.vpd_stats ∧ s'.gdd = self.gdd ∧
      s'.temperature_stats.temperature_entries
        = self.temperature_stats.temperature_entries ++ [record.temperature] ∧
      s'.temperature_stats.temperature_sum
        = self.temperature_stats.temperature_sum + record.temperature ∧
      iterMax s'.temperature_stats.temperature_entries
        = some s'.temperature_stats.max_temperature ∧
      iterMin s'.temperature_stats.temperature_entries
        = some s'.temperature_stats.min_temperature ∧
      s'.temperature_stats.mean_temperature
        = s'.temperature_stats.temperature_sum
          / (s'.temperature_stats.temperature_entries.length : ℚ) ∧
      s'.temperature_stats.temperature_entries[
          s'.temperature_stats.temperature_entries.length / 2]?
        = some s'.temperature_stats.median_temperature := by
  simp only [calc_temperature_stats] at h
  split at h
  next mx mn md hmx hmn hmd =>
    injection h with h
    subst h
    exact ⟨rfl, rfl, rfl, rfl, rfl, rfl, rfl, hmx, hmn, rfl, hmd⟩
  next => exact absurd h (by simp)

theorem calc_humidity_stats_isSome (self : DaySummaryStats)
    (record : SensorRecord) : (calc_humidity_stats self record).isSome := by
  obtain ⟨mx, hmx⟩ :=
    iterMax_concat_isSome self.humidity_stats.humidity_entries record.humidity
  obtain ⟨mn, hmn⟩ :=
    iterMin_concat_isSome self.humidity_stats.humidity_entries record.humidity
  obtain ⟨md, hmd⟩ :=
    getElem?_concat_half_isSome self.humidity_stats.humidity_entries record.humidity
  simp only [calc_humidity_stats, hmx, hmn, hmd, Option.isSome_some]

theorem calc_humidity_stats_spec (self : DaySummaryStats)
    (record : SensorRecord) (s' : DaySummaryStats)
    (h : calc_humidity_stats self record = some s') :
    s'.date = self.date ∧ s'.temperature_stats = self.temperature_stats ∧
      s'.dew_point_stats = self.dew_point_stats ∧
      s'.vpd_stats = self.vpd_stats ∧ s'.gdd = self.gdd ∧
      s'.humidity_stats.humidity_entries
        = self.humidity_stats.humidity_entries ++ [record.humidity] ∧
      s'.humidity_stats.humidity_sum
        = self.humidity_stats.humidity_sum + record.humidity ∧
      iterMax s'.humidity_stats.humidity_entries
        = some s'.humidity_stats.max_humidity ∧
      iterMin s'.humidity_stats.humidity_entries
        = some s'.humidity_stats.min_humidity ∧
      s'.humidity_stats.mean_humidity
        = s'.humidity_stats.humidity_sum
          / (s'.humidity_stats.humidity_entries.length : ℚ) ∧
      s'.humidity_stats.humidity_entries[
          s'.humidity_stats.humidity_entries.length / 2]?
        = some s'.humidity_stats.median_humidity := by
  simp only [calc_humidity_stats] at h
  split at h
  next mx mn md hmx hmn hmd =>
    injection h with h
    subst h
    exact ⟨rfl, rfl, rfl, rfl, rfl, rfl, rfl, hmx, hmn, rfl, hmd⟩
  next => exact absurd h (by simp)

theorem calc_dew_point_stats_isSome (self : DaySummaryStats)
    (record : SensorRecord) : (calc_dew_point_stats self record).isSome := by
  obtain ⟨mx, hmx⟩ :=
    iterMax_concat_isSome self.dew_point_stats.dew_point_entries record.dew_point
  obtain ⟨mn, hmn⟩ :=
    iterMin_concat_isSome self.dew_point_stats.dew_point_entries record.dew_point
  obtain ⟨md, hmd⟩ :=
    getElem?_concat_half_isSome self.dew_point_stats.dew_point_entries record.dew_point
  simp only [calc_dew_point_stats, hmx, hmn, hmd, Option.isSome_some]

theorem calc_dew_point_stats_spec (self : DaySummaryStats)
    (record : SensorRecord) (s' : DaySummaryStats)
    (h : calc_dew_point_stats self record = some s') :
    s'.date = self.date ∧ s'.temperature_stats = self.temperature_stats ∧
      s'.humidity_stats = self.humidity_stats ∧
      s'.vpd_stats = self.vpd_stats ∧ s'.gdd = self.gdd ∧
      s'.dew_point_stats.dew_point_entries
        = self.dew_point_stats.dew_point_entries ++ [record.dew_point] ∧
      s'.dew_point_stats.dew_point_sum
        = self.dew_point_stats.dew_point_sum + record.dew_point ∧
      iterMax s'.dew_point_stats.dew_point_entries
        = some s'.dew_point_stats.max_dew_point ∧
      iterMin s'.dew_point_stats.dew_point_entries
        = some s'.dew_point_stats.min_dew_point ∧
      s'.dew_point_stats.mean_dew_point
        = s'.dew_point_stats.dew_point_sum
          / (s'.dew_point_stats.dew_point_entries.length : ℚ) ∧
      s'.dew_point_stats.dew_point_entries[
          s'.dew_point_stats.dew_point_entries.length / 2]?
        = some s'.dew_point_stats.median_dew_point := by
  simp only [calc_dew_point_stats] at h
  split at h
  next mx mn md hmx hmn hmd =>
    injection h with h
    subst h
    exact ⟨rfl, rfl, rfl, rfl, rfl, rfl, rfl, hmx, hmn, rfl, hmd⟩
  next => exact absurd h (by simp)

theorem calc_vpd_stats_isSome (self : DaySummaryStats)
    (record : SensorRecord) : (calc_vpd_stats self record).isSome := by
  obtain ⟨mx, hmx⟩ := iterMax_concat_isSome self.vpd_stats.vpd_entries record.vpd
  obtain ⟨mn, hmn⟩ := iterMin_concat_isSome self.vpd_stats.vpd_entries record.vpd
  obtain ⟨md, hmd⟩ :=
    getElem?_concat_half_isSome self.vpd_stats.vpd_entries record.vpd
  simp only [calc_vpd_stats, hmx, hmn, hmd, Option.isSome_some]

theorem calc_vpd_stats_spec (self : DaySummaryStats)
    (record : SensorRecord) (s' : DaySummaryStats)
    (h : calc_vpd_stats self record = some s') :
    s'.date = self.date ∧ s'.temperature_stats = self.temperature_stats ∧
      s'.humidity_stats = self.humidity_stats ∧
      s'.dew_point_stats = self.dew_point_stats ∧ s'.gdd = self.gdd ∧
      s'.vpd_stats.vpd_entries = self.vpd_stats.vpd_entries ++ [record.vpd] ∧
      s'.vpd_stats.vpd_sum = self.vpd_stats.vpd_sum + record.vpd ∧
      iterMax s'.vpd_stats.vpd_entries = some s'.vpd_stats.max_vpd ∧
      iterMin s'.vpd_stats.vpd_entries = some s'.vpd_stats.min_vpd ∧
      s'.vpd_stats.mean_vpd
        = s'.vpd_stats.vpd_sum / (s'.vpd_stats.vpd_entries.length : ℚ) ∧
      s'.vpd_stats.vpd_entries[s'.vpd_stats.vpd_entries.length / 2]?
        = some s'.vpd_stats.median_vpd := by
  simp only [calc_vpd_stats] at h
  split at h
  next mx mn md hmx hmn hmd =>
    injection h with h
    subst h
    exact ⟨rfl, rfl, rfl, rfl, rfl, rfl, rfl, hmx, hmn, rfl, hmd⟩
  next => exact absurd h (by simp)

/-! ### Characterisation of `absorb` and `add_record` -/

theorem absorb_eq_some (self : DaySummaryStats) (record : SensorRecord)
    (s' : DaySummaryStats) (h : absorb self record = some s') :
    ∃ s1 s2 s3 s4,
      calc_temperature_stats self record = some s1 ∧
      calc_humidity_stats s1 record = some s2 ∧
      calc_dew_point_stats s2 record = some s3 ∧
      calc_vpd_stats s3 record = some s4 ∧
      s' = calc_growing_degrees_day s4 := by
  simp only [absorb, Option.bind_eq_bind, Option.bind_eq_some, Option.pure_def,
    Option.some.injEq] at h
  obtain ⟨s1, h1, s2, h2, s3, h3, s4, h4, h5⟩ := h
  exact ⟨s1, s2, s3, s4, h1, h2, h3, h4, h5.symm⟩

theorem absorb_isSome (self : DaySummaryStats) (record : SensorRecord) :
    (absorb self record).isSome := by
  obtain ⟨s1, h1⟩ :=
    Option.isSome_iff_exists.mp (calc_temperature_stats_isSome self record)
  obtain ⟨s2, h2⟩ :=
    Option.isSome_iff_exists.mp (calc_humidity_stats_isSome s1 record)
  obtain ⟨s3, h3⟩ :=
    Option.isSome_iff_exists.mp (calc_dew_point_stats_isSome s2 record)
  obtain ⟨s4, h4⟩ :=
    Option.isSome_iff_exists.mp (calc_vpd_stats_isSome s3 record)
  simp [absorb, h1, h2, h3, h4]

theorem absorb_spec (self : DaySummaryStats) (record : SensorRecord)
    (s' : DaySummaryStats) (h : absorb self record = some s') :
    s'.date = self.date ∧
      s'.gdd = s'.temperature_stats.mean_temperature - GDD_THRESHOLD := by
  obtain ⟨s1, s2, s3, s4, h1, h2, h3, h4, h5⟩ := absorb_eq_some _ _ _ h
  have d1 := (calc_temperature_stats_spec _ _ _ h1).1
  have d2 := (calc_humidity_stats_spec _ _ _ h2).1
  have d3 := (calc_dew_point_stats_spec _ _ _ h3).1
  have d4 := (calc_vpd_stats_spec _ _ _ h4).1
  subst h5
  exact ⟨by rw [show (calc_growing_degrees_day s4).date = s4.date from rfl,
    d4, d3, d2, d1], rfl⟩

theorem add_record_nil (record : SensorRecord) :
    add_record [] record = some [from_record record] := rfl

theorem add_record_absorb (days : List DaySummaryStats)
    (last : DaySummaryStats) (record : SensorRecord)
    (hlast : days.getLast? = some last)
    (hdate : last.date = record.timestamp) :
    add_record days record
      = (absorb last record).map (fun d => days.dropLast ++ [d]) := by
  unfold add_record
  rw [hlast]
  exact if_pos hdate

theorem add_record_push (days : List DaySummaryStats)
    (last : DaySummaryStats) (record : SensorRecord)
    (hlast : days.getLast? = some last)
    (hdate : last.date ≠ record.timestamp) :
    add_record days record = some (days ++ [from_record record]) := by
  unfold add_record
  rw [hlast]
  exact if_neg hdate

theorem add_record_isSome (days : List DaySummaryStats)
    (record : SensorRecord) : (add_record days record).isSome := by
  cases hlast : days.getLast? with
  | none => simp [add_record, hlast]
  | some last =>
    by_cases hdate : last.date = record.timestamp
    · obtain ⟨d, hd⟩ := Option.isSome_iff_exists.mp (absorb_isSome last record)
      rw [add_record_absorb days last record hlast hdate, hd]
      rfl
    · rw [add_record_push days last record hlast hdate]
      rfl

theorem runFrom_nil (days : List DaySummaryStats) : runFrom days [] = some days := rfl

theorem runFrom_cons (days : List DaySummaryStats) (r : SensorRecord)
    (rs : List SensorRecord) :
    runFrom days (r :: rs)
      = (add_record days r).bind (fun days' => runFrom days' rs) := by
  simp [runFrom, List.foldlM_cons, Option.bind_eq_bind]

theorem runFrom_isSome (rs : List SensorRecord) :
    ∀ days : List DaySummaryStats, (runFrom days rs).isSome := by
  induction rs with
  | nil => intro days; rfl
  | cons r rest ih =>
    intro days
    obtain ⟨days', hd⟩ := Option.isSome_iff_exists.mp (add_record_isSome days r)
    rw [runFrom_cons, hd]
    exact ih days'

/-! ### The RunningStat invariant is established by seeding and preserved by
every observe -/

theorem statInv_seed (v : ℚ) : statInv [v] v v v v v := by
  unfold statInv isMaxOf isMinOf
  simp

theorem dayInv_from_record (record : SensorRecord) :
    dayInv (from_record record) :=
  ⟨statInv_seed record.temperature, statInv_seed record.humidity,
    statInv_seed record.dew_point, statInv_seed record.vpd⟩

theorem tempInv_calc (self : DaySummaryStats) (record : SensorRecord)
    (s' : DaySummaryStats) (h : calc_temperature_stats self record = some s')
    (hsum : self.temperature_stats.temperature_sum
      = self.temperature_stats.temperature_entries.sum) :
    tempInv s'.temperature_stats := by
  obtain ⟨-, -, -, -, -, hent, hsum', hmx, hmn, hme, hmd⟩ :=
    calc_temperature_stats_spec _ _ _ h
  refine ⟨?_, iterMax_isMaxOf hmx, iterMin_isMinOf hmn, hme, hmd⟩
  rw [hsum', hent, hsum]
  simp

theorem humInv_calc (self : DaySummaryStats) (record : SensorRecord)
    (s' : DaySummaryStats) (h : calc_humidity_stats self record = some s')
    (hsum : self.humidity_stats.humidity_sum
      = self.humidity_stats.humidity_entries.sum) :
    humInv s'.humidity_stats := by
  obtain ⟨-, -, -, -, -, hent, hsum', hmx, hmn, hme, hmd⟩ :=
    calc_humidity_stats_spec _ _ _ h
  refine ⟨?_, iterMax_isMaxOf hmx, iterMin_isMinOf hmn, hme, hmd⟩
  rw [hsum', hent, hsum]
  simp

theorem dewInv_calc (self : DaySummaryStats) (record : SensorRecord)
    (s' : DaySummaryStats) (h : calc_dew_point_stats self record = some s')
    (hsum : self.dew_point_stats.dew_point_sum
      = self.dew_point_stats.dew_point_entries.sum) :
    dewInv s'.dew_point_stats := by
  obtain ⟨-, -, -, -, -, hent, hsum', hmx, hmn, hme, hmd⟩ :=
    calc_dew_point_stats_spec _ _ _ h
  refine ⟨?_, iterMax_isMaxOf hmx, iterMin_isMinOf hmn, hme, hmd⟩
  rw [hsum', hent, hsum]
  simp

theorem vpdInv_calc (self : DaySummaryStats) (record : SensorRecord)
    (s' : DaySummaryStats) (h : calc_vpd_stats self record = some s')
    (hsum : self.vpd_stats.vpd_sum = self.vpd_stats.vpd_entries.sum) :
    vpdInv s'.vpd_stats := by
  obtain ⟨-, -, -, -, -, hent, hsum', hmx, hmn, hme, hmd⟩ :=
    calc_vpd_stats_spec _ _ _ h
  refine ⟨?_, iterMax_isMaxOf hmx, iterMin_isMinOf hmn, hme, hmd⟩
  rw [hsum', hent, hsum]
  simp

theorem dayInv_absorb (self : DaySummaryStats) (record : SensorRecord)
    (s' : DaySummaryStats) (h : absorb self record = some s')
    (hinv : dayInv self) : dayInv s' := by
  obtain ⟨s1, s2, s3, s4, h1, h2, h3, h4, h5⟩ := absorb_eq_some _ _ _ h
  have spec1 := calc_temperature_stats_spec _ _ _ h1
  have spec2 := calc_humidity_stats_spec _ _ _ h2
  have spec3 := calc_dew_point_stats_spec _ _ _ h3
  have spec4 := calc_vpd_stats_spec _ _ _ h4
  -- temperature invariant established at s1, framed through s2, s3, s4
  have t4 : tempInv s4.temperature_stats := by
    rw [spec4.2.1, spec3.2.1, spec2.2.1]
    exact tempInv_calc _ _ _ h1 hinv.1.1
  -- humidity invariant established at s2, framed
  have hu4 : humInv s4.humidity_stats := by
    rw [spec4.2.2.1, spec3.2.2.1]
    refine humInv_calc _ _ _ h2 ?_
    rw [spec1.2.1]
    exact hinv.2.1.1
  -- dew-point invariant established at s3, framed
  have dw4 : dewInv s4.dew_point_stats := by
    rw [spec4.2.2.2.1]
    refine dewInv_calc _ _ _ h3 ?_
    rw [spec2.2.2.1, spec1.2.2.1]
    exact hinv.2.2.1.1
  -- vpd invariant established at s4
  have vp4 : vpdInv s4.vpd_stats := by
    refine vpdInv_calc _ _ _ h4 ?_
    rw [spec3.2.2.2.1, spec2.2.2.2.1, spec1.2.2.2.1]
    exact hinv.2.2.2.1
  subst h5
  exact ⟨t4, hu4, dw4, vp4⟩

theorem add_record_dayInv (days : List DaySummaryStats) (record : SensorRecord)
    (days' : List DaySummaryStats) (h : add_record days record = some days')
    (hinv : ∀ d ∈ days, dayInv d) : ∀ d ∈ days', dayInv d := by
  cases hlast : days.getLast? with
  | none =>
    rw [add_record, hlast] at h
    injection h with h
    subst h
    intro d hd
    rcases List.mem_append.mp hd with hd | hd
    · exact hinv d hd
    · rw [List.mem_singleton] at hd
      subst hd
      exact dayInv_from_record record
  | some last =>
    by_cases hdate : last.date = record.timestamp
    · rw [add_record_absorb days last record hlast hdate] at h
      obtain ⟨d', hd', hmap⟩ := Option.map_eq_some'.mp h
      subst hmap
      intro d hd
      rcases List.mem_append.mp hd with hd | hd
      · exact hinv d ((List.dropLast_sublist days).subset hd)
      · rw [List.mem_singleton] at hd
        subst hd
        exact dayInv_absorb last record d hd'
          (hinv last (List.mem_of_mem_getLast? ((List.getLast?_eq_some_iff.mp hlast).elim
            fun ys hys => by rw [hlast]; rfl)))
    · rw [add_record_push days last record hlast hdate] at h
      injection h with h
      subst h
      intro d hd
      rcases List.mem_append.mp hd with hd | hd
      · exact hinv d hd
      · rw [List.mem_singleton] at hd
        subst hd
        exact dayInv_from_record record

theorem runFrom_dayInv (rs : List SensorRecord) :
    ∀ days days' : List DaySummaryStats, runFrom days rs = some days' →
      (∀ d ∈ days, dayInv d) → ∀ d ∈ days', dayInv d := by
  induction rs with
  | nil =>
    intro days days' h hinv
    rw [runFrom_nil] at h
    injection h with h
    subst h
    exact hinv
  | cons r rest ih =>
    intro days days' h hinv
    rw [runFrom_cons] at h
    obtain ⟨days1, h1, h2⟩ := Option.bind_eq_some.mp h
    exact ih days1 days' h2 (add_record_dayInv days r days1 h1 hinv)

/-! ### Concrete readings used as witnesses -/

def rA : SensorRecord :=
  { timestamp := 1, temperature := 70, humidity := 50, dew_point := 55, vpd := 1 }

def rB : SensorRecord :=
  { timestamp := 1, temperature := 80, humidity := 60, dew_point := 58, vpd := 2 }

def rC : SensorRecord :=
  { timestamp := 2, temperature := 75, humidity := 55, dew_point := 56, vpd := 3 }

def rC2 : SensorRecord :=
  { timestamp := 2, temperature := 77, humidity := 57, dew_point := 57, vpd := 4 }

def rD : SensorRecord :=
  { timestamp := 3, temperature := 68, humidity := 52, dew_point := 54, vpd := 5 }

/-- The summary obtained by seeding from `rA` and absorbing `rB`
(same date), written out in full. -/
def dayAB : DaySummaryStats :=
  { date := 1
    temperature_stats :=
      { max_temperature := 80, min_temperature := 70, mean_temperature := 75
        median_temperature := 80, temperature_entries := [70, 80]
        temperature_sum := 150 }
    humidity_stats :=
      { max_humidity := 60, min_humidity := 50, mean_humidity := 55
        median_humidity := 60, humidity_entries := [50, 60], humidity_sum := 110 }
    dew_point_stats :=
      { max_dew_point := 58, min_dew_point := 55, mean_dew_point := 113 / 2
        median_dew_point := 58, dew_point_entries := [55, 58]
        dew_point_sum := 113 }
    vpd_stats :=
      { max_vpd := 2, min_vpd := 1, mean_vpd := 3 / 2, median_vpd := 2
        vpd_entries := [1, 2], vpd_sum := 3 }
    gdd := 10 }

/-- Rational arithmetic does not reduce in the kernel, so the absorb step at
the witness input is evaluated once here by `norm_num`. -/
theorem absorb_rA_rB : absorb (from_record rA) rB = some dayAB := by
  simp only [absorb, from_record, rA, rB, dayAB, calc_temperature_stats,
    calc_humidity_stats, calc_dew_point_stats, calc_vpd_stats,
    calc_growing_degrees_day, iterMax, iterMin, GDD_THRESHOLD,
    List.cons_append, List.nil_append, List.foldl_cons, List.foldl_nil,
    List.length_cons, List.length_nil, Option.bind_eq_bind, Option.some_bind,
    Option.pure_def]
  norm_num [max_def, min_def]

theorem runLedger_rA_rB : runLedger [rA, rB] = some [dayAB] := by
  rw [runLedger, runFrom_cons, add_record_nil, Option.some_bind, runFrom_cons,
    add_record_absorb [from_record rA] (from_record rA) rB rfl rfl,
    absorb_rA_rB]
  rfl

def rM10 : SensorRecord :=
  { timestamp := 7, temperature := 10, humidity := 1, dew_point := 1, vpd := 1 }

def rM30 : SensorRecord :=
  { timestamp := 7, temperature := 30, humidity := 2, dew_point := 2, vpd := 2 }

def rM20 : SensorRecord :=
  { timestamp := 7, temperature := 20, humidity := 3, dew_point := 3, vpd := 3 }

/-! ### Claim theorems -/

/-- C1: for every RunningStat (each of the temperature, humidity, dew-point
and vpd accumulators of a DaySummary), after every observe call the invariant
holds: sum equals the sum of the entries list, max equals the maximum of
entries, min equals the minimum of entries, mean equals sum divided by the
length of entries, and median equals `entries[floor(len(entries)/2)]` taken
in insertion order. -/
theorem claim_c1_running_stat_invariant (rs : List SensorRecord)
    (days : List DaySummaryStats) (h : runLedger rs = some days) :
    ∀ d ∈ days, dayInv d :=
  runFrom_dayInv rs [] days h (fun d hd => absurd hd (List.not_mem_nil d))

/-- Witness for C1 at the concrete input `[rA, rB]`. -/
theorem claim_c1_witness : dayInv dayAB :=
  claim_c1_running_stat_invariant [rA, rB] [dayAB] runLedger_rA_rB dayAB
    (List.mem_singleton_self dayAB)

/-- C3: the median is positional on insertion order, not a statistical
median: for one day whose three readings give the temperature entries
`[10, 30, 20]` in arrival order, the stored median after the third observe
is `entries[1] = 30`, not the numerically middle value `20`. -/
theorem claim_c3_median_positional :
    (runLedger [rM10, rM30, rM20]).map
        (List.map (fun d => d.temperature_stats.median_temperature))
      = some [30] ∧
    (runLedger [rM10, rM30, rM20]).map
        (List.map (fun d => d.temperature_stats.temperature_entries))
      = some [[10, 30, 20]] ∧
    ((10 : ℚ) :: 30 :: 20 :: [])[1]? = some 30 ∧ (30 : ℚ) ≠ 20 := by
  decide

/-- C4: for every reading `r`, the DaySummary created from `r` alone has
`gdd = r.temperature - 65.0`, and after every same-date absorb the summary's
gdd equals the updated mean temperature of that day minus 65.0
(`GDD_THRESHOLD`). -/
theorem claim_c4_gdd (record : SensorRecord) :
    GDD_THRESHOLD = 65 ∧
    (from_record record).gdd = record.temperature - GDD_THRESHOLD ∧
    ∀ (self s' : DaySummaryStats) (r : SensorRecord), absorb self r = some s' →
      s'.gdd = s'.temperature_stats.mean_temperature - GDD_THRESHOLD :=
  ⟨rfl, rfl, fun self s' r h => (absorb_spec self r s' h).2⟩

/-- Witness for C4: absorbing `rB` into the summary seeded from `rA`. -/
theorem claim_c4_witness :
    (from_record rA).gdd = rA.temperature - GDD_THRESHOLD ∧
    dayAB.gdd = dayAB.temperature_stats.mean_temperature - GDD_THRESHOLD :=
  ⟨(claim_c4_gdd rA).2.1,
    (claim_c4_gdd rA).2.2 (from_record rA) dayAB rB absorb_rA_rB⟩

/-- C7: for every input consisting of exactly one reading, the resulting
single DaySummary has, for every tracked field, all five statistics equal to
that reading's value (`max = min = mean = median = value`,
`entries = [value]`, `sum = value`), so `median = mean = min = max`. -/
theorem claim_c7_single_reading (r : SensorRecord) :
    runLedger [r] = some [from_record r] ∧
    (from_record r).temperature_stats.temperature_entries = [r.temperature] ∧
    (from_record r).temperature_stats.temperature_sum = r.temperature ∧
    (from_record r).temperature_stats.max_temperature = r.temperature ∧
    (from_record r).temperature_stats.min_temperature = r.temperature ∧
    (from_record r).temperature_stats.mean_temperature = r.temperature ∧
    (from_record r).temperature_stats.median_temperature = r.temperature ∧
    (from_record r).humidity_stats.humidity_entries = [r.humidity] ∧
    (from_record r).humidity_stats.humidity_sum = r.humidity ∧
    (from_record r).humidity_stats.max_humidity = r.humidity ∧
    (from_record r).humidity_stats.min_humidity = r.humidity ∧
    (from_record r).humidity_stats.mean_humidity = r.humidity ∧
    (from_record r).humidity_stats.median_humidity = r.humidity ∧
    (from_record r).dew_point_stats.dew_point_entries = [r.dew_point] ∧
    (from_record r).dew_point_stats.dew_point_sum = r.dew_point ∧
    (from_record r).dew_point_stats.max_dew_point = r.dew_point ∧
    (from_record r).dew_point_stats.min_dew_point = r.dew_point ∧
    (from_record r).dew_point_stats.mean_dew_point = r.dew_point ∧
    (from_record r).dew_point_stats.median_dew_point = r.dew_point ∧
    (from_record r).vpd_stats.vpd_entries = [r.vpd] ∧
    (from_record r).vpd_stats.vpd_sum = r.vpd ∧
    (from_record r).vpd_stats.max_vpd = r.vpd ∧
    (from_record r).vpd_stats.min_vpd = r.vpd ∧
    (from_record r).vpd_stats.mean_vpd = r.vpd ∧
    (from_record r).vpd_stats.median_vpd = r.vpd :=
  ⟨rfl, rfl, rfl, rfl, rfl, rfl, rfl, rfl, rfl, rfl, rfl, rfl, rfl,
    rfl, rfl, rfl, rfl, rfl, rfl, rfl, rfl, rfl, rfl, rfl, rfl⟩

/-- C9: every `calc_*_stats` call is safe: the entries vector is non-empty
after the initial push, so the median index `len / 2` is always in bounds
and the full-scan max/min over entries always yield a value; with values
modelled as rationals (no NaN), every comparison is defined and no error
branch of the embedded observe is reachable, all the way up the call chain. -/
theorem claim_c9_safety :
    (∀ (l : List ℚ) (v : ℚ), ∃ m, iterMax (l ++ [v]) = some m) ∧
    (∀ (l : List ℚ) (v : ℚ), ∃ m, iterMin (l ++ [v]) = some m) ∧
    (∀ (l : List ℚ) (v : ℚ),
      ∃ m, (l ++ [v])[(l ++ [v]).length / 2]? = some m) ∧
    (∀ self record, (calc_temperature_stats self record).isSome) ∧
    (∀ self record, (calc_humidity_stats self record).isSome) ∧
    (∀ self record, (calc_dew_point_stats self record).isSome) ∧
    (∀ self record, (calc_vpd_stats self record).isSome) ∧
    (∀ self record, (absorb self record).isSome) ∧
    (∀ days record, (add_record days record).isSome) ∧
    (∀ rs, (runLedger rs).isSome) :=
  ⟨iterMax_concat_isSome, iterMin_concat_isSome, getElem?_concat_half_isSome,
    calc_temperature_stats_isSome, calc_humidity_stats_isSome,
    calc_dew_point_stats_isSome, calc_vpd_stats_isSome, absorb_isSome,
    add_record_isSome, fun rs => runFrom_isSome rs []⟩

/-! ### The cumulative gdd column -/

/-- Spec notion: the running totals of a list of values; element `i` is the
sum of the first `i + 1` values. -/
def runningTotals (l : List ℚ) : List ℚ :=
  (List.range l.length).map (fun i => (l.take (i + 1)).sum)

theorem runningTotals_concat (l : List ℚ) (g : ℚ) :
    runningTotals (l ++ [g]) = runningTotals l ++ [l.sum + g] := by
  unfold runningTotals
  rw [List.length_append, List.length_singleton, List.range_succ,
    List.map_append]
  congr 1
  · apply List.map_congr_left
    intro i hi
    rw [List.mem_range] at hi
    rw [List.take_append_of_le_length (by omega)]
  · have ht : (l ++ [g]).take (l.length + 1) = l ++ [g] := by
      apply List.take_of_length_le
      simp
    simp [ht, List.sum_append]

theorem gddFold_spec (days : List DaySummaryStats) :
    days.foldl
        (fun acc day_summary =>
          let total_gdd := acc.1 + day_summary.gdd
          (total_gdd, acc.2 ++ [total_gdd]))
        ((0 : ℚ), ([] : List ℚ))
      = ((days.map (fun d => d.gdd)).sum,
          runningTotals (days.map (fun d => d.gdd))) := by
  induction days using List.reverseRecOn with
  | nil => simp [runningTotals]
  | append_singleton ds d ih =>
    rw [List.foldl_append, ih, List.foldl_cons, List.foldl_nil]
    simp only [List.map_append, List.map_cons, List.map_nil, List.sum_append,
      List.sum_cons, List.sum_nil, runningTotals_concat]
    simp

def rG2 : SensorRecord :=
  { timestamp := 1, temperature := 67, humidity := 40, dew_point := 41, vpd := 1 }

def rGneg1 : SensorRecord :=
  { timestamp := 2, temperature := 64, humidity := 42, dew_point := 43, vpd := 2 }

def rG3 : SensorRecord :=
  { timestamp := 3, temperature := 68, humidity := 44, dew_point := 45, vpd := 3 }

/-- C5: the gdd column of the emitted report is a running total of the
per-day gdd values across all days emitted so far, one row per day in ledger
order: for three days with per-day GDD `[2, -1, 3]`, the emitted gdd column
values are `[2, 1, 4]`. -/
theorem claim_c5_gdd_cumulative :
    (∀ days : List DaySummaryStats,
      gddColumn days = runningTotals (days.map (fun d => d.gdd))) ∧
    (∀ days : List DaySummaryStats, (gddColumn days).length = days.length) ∧
    (from_record rG2).gdd = 2 ∧ (from_record rGneg1).gdd = -1 ∧
    (from_record rG3).gdd = 3 ∧
    gddColumn [from_record rG2, from_record rGneg1, from_record rG3]
      = [2, 1, 4] := by
  have hcol : ∀ days : List DaySummaryStats,
      gddColumn days = runningTotals (days.map (fun d => d.gdd)) := by
    intro days
    rw [gddColumn, gddFold_spec]
  refine ⟨hcol, ?_, ?_, ?_, ?_, ?_⟩
  · intro days
    rw [hcol]
    simp [runningTotals]
  · norm_num [from_record, rG2, GDD_THRESHOLD]
  · norm_num [from_record, rGneg1, GDD_THRESHOLD]
  · norm_num [from_record, rG3, GDD_THRESHOLD]
  · norm_num [gddColumn, from_record, rG2, rGneg1, rG3, GDD_THRESHOLD,
      List.foldl_cons, List.foldl_nil]

/-- C2: for every sequence of readings fed to `add_record` in order: an empty
ledger starts a new DaySummary, a reading matching the last summary's date is
absorbed in place, and any other reading appends a new DaySummary — so for
the non-monotonic date sequence `[D1, D1, D2, D2, D1]` the ledger ends with
exactly 3 summaries: two for `D1` and one for `D2`. -/
theorem claim_c2_day_boundary (r1 r2 r3 r4 r5 : SensorRecord)
    (D1 D2 : NaiveDate) (h1 : r1.timestamp = D1) (h2 : r2.timestamp = D1)
    (h3 : r3.timestamp = D2) (h4 : r4.timestamp = D2) (h5 : r5.timestamp = D1)
    (hne : D1 ≠ D2) :
    (runLedger [r1, r2, r3, r4, r5]).map (List.map (fun d => d.date))
      = some [D1, D2, D1] := by
  rw [runLedger, runFrom_cons, add_record_nil, Option.some_bind, runFrom_cons,
    add_record_absorb [from_record r1] (from_record r1) r2 rfl
      (by rw [show (from_record r1).date = r1.timestamp from rfl, h1, h2])]
  obtain ⟨b1, hb1⟩ :=
    Option.isSome_iff_exists.mp (absorb_isSome (from_record r1) r2)
  have hb1date : b1.date = D1 := by
    rw [(absorb_spec _ _ _ hb1).1,
      show (from_record r1).date = r1.timestamp from rfl, h1]
  rw [hb1]
  simp only [Option.map_some', Option.some_bind]
  rw [show [from_record r1].dropLast ++ [b1] = [b1] from rfl, runFrom_cons,
    add_record_push [b1] b1 r3 rfl (by rw [hb1date, h3]; exact hne),
    Option.some_bind, runFrom_cons]
  simp only [List.cons_append, List.nil_append]
  rw [add_record_absorb [b1, from_record r3] (from_record r3) r4 rfl
      (by rw [show (from_record r3).date = r3.timestamp from rfl, h3, h4])]
  obtain ⟨c1, hc1⟩ :=
    Option.isSome_iff_exists.mp (absorb_isSome (from_record r3) r4)
  have hc1date : c1.date = D2 := by
    rw [(absorb_spec _ _ _ hc1).1,
      show (from_record r3).date = r3.timestamp from rfl, h3]
  rw [hc1]
  simp only [Option.map_some', Option.some_bind]
  rw [show [b1, from_record r3].dropLast ++ [c1] = [b1, c1] from rfl,
    runFrom_cons,
    add_record_push [b1, c1] c1 r5 rfl (by rw [hc1date, h5]; exact Ne.symm hne),
    Option.some_bind]
  simp only [List.cons_append, List.nil_append]
  rw [runFrom_nil]
  simp [hb1date, hc1date, show (from_record r5).date = r5.timestamp from rfl, h5]

def rE : SensorRecord :=
  { timestamp := 1, temperature := 66, humidity := 45, dew_point := 46, vpd := 1 }

/-- Witness for C2 at the concrete date sequence `[1, 1, 2, 2, 1]`. -/
theorem claim_c2_witness :
    (runLedger [rA, rB, rC, rC2, rE]).map (List.map (fun d => d.date))
      = some [1, 2, 1] :=
  claim_c2_day_boundary rA rB rC rC2 rE 1 2 rfl rfl rfl rfl rfl (by decide)

/-! ### Frame property: only the last ledger element is ever touched -/

theorem add_record_dropLast (days : List DaySummaryStats)
    (record : SensorRecord) (days' : List DaySummaryStats)
    (h : add_record days record = some days') :
    days.dropLast <+: days'.dropLast := by
  cases hlast : days.getLast? with
  | none =>
    rw [add_record, hlast] at h
    injection h with h
    subst h
    rw [List.dropLast_concat]
    exact List.dropLast_prefix days
  | some last =>
    by_cases hdate : last.date = record.timestamp
    · rw [add_record_absorb days last record hlast hdate] at h
      obtain ⟨d', hd', rfl⟩ := Option.map_eq_some'.mp h
      rw [List.dropLast_concat]
    · rw [add_record_push days last record hlast hdate] at h
      injection h with h
      subst h
      rw [List.dropLast_concat]
      exact List.dropLast_prefix days

theorem runFrom_dropLast (rs : List SensorRecord) :
    ∀ days days' : List DaySummaryStats, runFrom days rs = some days' →
      days.dropLast <+: days'.dropLast := by
  induction rs with
  | nil =>
    intro days days' h
    rw [runFrom_nil] at h
    injection h with h
    subst h
    exact List.prefix_refl _
  | cons r rest ih =>
    intro days days' h
    rw [runFrom_cons] at h
    obtain ⟨days1, hd1, h2⟩ := Option.bind_eq_some.mp h
    exact (add_record_dropLast days r days1 hd1).trans (ih days1 days' h2)

/-- C8: once the ledger appends a DaySummary for a later date, every earlier
DaySummary is terminal: no subsequent `add_record` call mutates any element
of the ledger other than the last one, so all non-last summaries persist
unchanged (at their positions) for the rest of the run. -/
theorem claim_c8_frame (days : List DaySummaryStats) (rs : List SensorRecord)
    (days' : List DaySummaryStats) (h : runFrom days rs = some days') :
    days.dropLast <+: days' ∧
      ∀ i : Nat, i + 1 < days.length → days'[i]? = days[i]? := by
  have hpre : days.dropLast <+: days'.dropLast := runFrom_dropLast rs days days' h
  have hpre' : days.dropLast <+: days' := hpre.trans (List.dropLast_prefix days')
  refine ⟨hpre', ?_⟩
  intro i hi
  have hlen : i < days.dropLast.length := by
    rw [List.length_dropLast]
    omega
  obtain ⟨t, ht⟩ := hpre'
  rw [← ht, List.getElem?_append_left hlen, List.getElem?_dropLast,
    if_pos (by omega)]

/-- Witness for C8: a ledger of two closed days absorbs a third day; the
first element is untouched. -/
theorem claim_c8_witness :
    [dayAB, from_record rC].dropLast
        <+: [dayAB, from_record rC, from_record rD] ∧
      [dayAB, from_record rC, from_record rD][0]? = [dayAB, from_record rC][0]? := by
  have h : runFrom [dayAB, from_record rC] [rD]
      = some [dayAB, from_record rC, from_record rD] := by
    rw [runFrom_cons,
      add_record_push [dayAB, from_record rC] (from_record rC) rD rfl
        (by decide), Option.some_bind, runFrom_nil]
    rfl
  exact ⟨(claim_c8_frame [dayAB, from_record rC] [rD]
      [dayAB, from_record rC, from_record rD] h).1,
    (claim_c8_frame [dayAB, from_record rC] [rD]
      [dayAB, from_record rC, from_record rD] h).2 0 (by decide)⟩

/-! ### Sorted input: distinct dates, last-element boundary detection -/

theorem pairwise_lt_le_getLast {l : List Nat} (hp : l.Pairwise (· < ·))
    (x : Nat) (hx : l.getLast? = some x) : ∀ a ∈ l, a ≤ x := by
  obtain ⟨ys, rfl⟩ := List.getLast?_eq_some_iff.mp hx
  intro a ha
  rcases List.mem_append.mp ha with h | h
  · exact le_of_lt
      ((List.pairwise_append.mp hp).2.2 a h x (List.mem_singleton_self x))
  · rw [List.mem_singleton] at h
    exact le_of_eq h

theorem runFrom_sorted (rs : List SensorRecord) :
    ∀ days days' : List DaySummaryStats, runFrom days rs = some days' →
      List.Chain' (fun a b : SensorRecord => a.timestamp ≤ b.timestamp) rs →
      (days.map (fun d => d.date)).Pairwise (· < ·) →
      (∀ last ∈ days.getLast?, ∀ r0 ∈ rs.head?, last.date ≤ r0.timestamp) →
      (days'.map (fun d => d.date)).Pairwise (· < ·) ∧
        ∀ a ∈ days'.map (fun d => d.date),
          a ∈ days.map (fun d => d.date) ∨
            a ∈ rs.map (fun r => r.timestamp) := by
  induction rs with
  | nil =>
    intro days days' h _ hpw _
    rw [runFrom_nil] at h
    injection h with h
    subst h
    exact ⟨hpw, fun a ha => Or.inl ha⟩
  | cons r rest ih =>
    intro days days' h hch hpw hconn
    rw [runFrom_cons] at h
    obtain ⟨days1, hd1, h2⟩ := Option.bind_eq_some.mp h
    have hch' := hch.tail
    have hhead : ∀ r0 ∈ rest.head?, r.timestamp ≤ r0.timestamp :=
      (List.chain'_cons'.mp hch).1
    cases hlast : days.getLast? with
    | none =>
      have hdays : days = [] := List.getLast?_eq_none_iff.mp hlast
      subst hdays
      rw [add_record_nil] at hd1
      injection hd1 with hd1
      subst hd1
      obtain ⟨hpw', hsub'⟩ := ih [from_record r] days' h2 hch' (by simp)
        (by
          intro l2 hl2 r0 hr0
          rw [show ([from_record r].getLast? : Option DaySummaryStats)
            = some (from_record r) from rfl] at hl2
          rw [Option.mem_some_iff] at hl2
          subst hl2
          exact hhead r0 hr0)
      refine ⟨hpw', fun a ha => Or.inr ?_⟩
      rcases hsub' a ha with hI | hI
      · simp only [List.map_cons, List.map_nil, List.mem_singleton] at hI
        rw [List.map_cons]
        exact hI ▸ List.mem_cons_self _ _
      · rw [List.map_cons]
        exact List.mem_cons_of_mem _ hI
    | some last =>
      by_cases hdate : last.date = r.timestamp
      · rw [add_record_absorb days last r hlast hdate] at hd1
        obtain ⟨d', habs, rfl⟩ := Option.map_eq_some'.mp hd1
        have hd'date : d'.date = last.date := (absorb_spec _ _ _ habs).1
        have hmap : (days.dropLast ++ [d']).map (fun d => d.date)
            = days.map (fun d => d.date) := by
          conv_rhs => rw [← List.dropLast_append_getLast? last hlast]
          rw [List.map_append, List.map_append]
          simp [hd'date]
        obtain ⟨hpw', hsub'⟩ := ih _ days' h2 hch' (by rw [hmap]; exact hpw)
          (by
            intro l2 hl2 r0 hr0
            rw [List.getLast?_concat, Option.mem_some_iff] at hl2
            subst hl2
            rw [hd'date, hdate]
            exact hhead r0 hr0)
        refine ⟨hpw', fun a ha => ?_⟩
        rcases hsub' a ha with hI | hI
        · rw [hmap] at hI
          exact Or.inl hI
        · right
          rw [List.map_cons]
          exact List.mem_cons_of_mem _ hI
      · rw [add_record_push days last r hlast hdate] at hd1
        injection hd1 with hd1
        subst hd1
        have hlt : last.date < r.timestamp :=
          lt_of_le_of_ne (hconn last hlast r rfl) hdate
        have hall : ∀ a ∈ days.map (fun d => d.date), a < r.timestamp := by
          intro a ha
          exact lt_of_le_of_lt
            (pairwise_lt_le_getLast hpw last.date
              (by rw [List.getLast?_map, hlast]; rfl) a ha) hlt
        have hpw1 : ((days ++ [from_record r]).map (fun d => d.date)).Pairwise
            (· < ·) := by
          rw [List.map_append, List.pairwise_append]
          refine ⟨hpw, by simp, ?_⟩
          intro a ha b hb
          simp only [List.map_cons, List.map_nil, List.mem_singleton] at hb
          rw [hb, show (from_record r).date = r.timestamp from rfl]
          exact hall a ha
        obtain ⟨hpw', hsub'⟩ := ih _ days' h2 hch' hpw1
          (by
            intro l2 hl2 r0 hr0
            rw [List.getLast?_concat, Option.mem_some_iff] at hl2
            subst hl2
            exact hhead r0 hr0)
        refine ⟨hpw', fun a ha => ?_⟩
        rcases hsub' a ha with hI | hI
        · rw [List.map_append] at hI
          rcases List.mem_append.mp hI with hI | hI
          · exact Or.inl hI
          · right
            simp only [List.map_cons, List.map_nil, List.mem_singleton] at hI
            rw [List.map_cons]
            rw [hI, show (from_record r).date = r.timestamp from rfl]
            exact List.mem_cons_self _ _
        · right
          rw [List.map_cons]
          exact List.mem_cons_of_mem _ hI

/-- C6: under the precondition that the reading stream is non-decreasing by
date, the ledger contains at most one DaySummary per distinct date, and
whenever a further reading for an already-present date arrives, that date's
summary is the most-recently-appended element. -/
theorem claim_c6_sorted_unique (rs : List SensorRecord)
    (hsorted : List.Chain' (fun a b : SensorRecord =>
      a.timestamp ≤ b.timestamp) rs)
    (days : List DaySummaryStats) (h : runLedger rs = some days) :
    (days.map (fun d => d.date)).Nodup ∧
      ∀ r : SensorRecord, (∀ s ∈ rs, s.timestamp ≤ r.timestamp) →
        r.timestamp ∈ days.map (fun d => d.date) →
        (days.getLast?).map (fun d => d.date) = some r.timestamp := by
  obtain ⟨hpw, hsub⟩ := runFrom_sorted rs [] days h hsorted (by simp)
    (by intro last hlast r0 hr0; simp at hlast)
  constructor
  · exact hpw.imp (fun hlt => ne_of_lt hlt)
  · intro r hle hmem
    have hne : days ≠ [] := by
      intro hd
      subst hd
      simp at hmem
    obtain ⟨lastd, hlast⟩ : ∃ lastd, days.getLast? = some lastd := by
      cases hL : days.getLast? with
      | none => exact absurd (List.getLast?_eq_none_iff.mp hL) hne
      | some x => exact ⟨x, rfl⟩
    have h1 : r.timestamp ≤ lastd.date :=
      pairwise_lt_le_getLast hpw lastd.date
        (by rw [List.getLast?_map, hlast]; rfl) _ hmem
    have h2 : lastd.date ≤ r.timestamp := by
      rcases hsub lastd.date
          (List.mem_map.mpr ⟨lastd, List.mem_of_mem_getLast? hlast, rfl⟩)
        with hI | hI
      · simp at hI
      · obtain ⟨s, hs, hseq⟩ := List.mem_map.mp hI
        exact hseq ▸ hle s hs
    rw [hlast, Option.map_some']
    exact congrArg some (le_antisymm h2 h1)

theorem runLedger_rA_rB_rC :
    runLedger [rA, rB, rC] = some [dayAB, from_record rC] := by
  rw [runLedger, runFrom_cons, add_record_nil, Option.some_bind, runFrom_cons,
    add_record_absorb [from_record rA] (from_record rA) rB rfl rfl,
    absorb_rA_rB]
  simp only [Option.map_some', Option.some_bind]
  rw [show [from_record rA].dropLast ++ [dayAB] = [dayAB] from rfl,
    runFrom_cons, add_record_push [dayAB] dayAB rC rfl (by decide),
    Option.some_bind, runFrom_nil]
  rfl

/-- Witness for C6 at the sorted input `[rA, rB, rC]` and the further
same-date reading `rC2`. -/
theorem claim_c6_witness :
    ([dayAB, from_record rC].map (fun d => d.date)).Nodup ∧
      (([dayAB, from_record rC].getLast?).map (fun d => d.date)
        = some rC2.timestamp) := by
  have h := claim_c6_sorted_unique [rA, rB, rC]
    (by
      rw [List.chain'_cons, List.chain'_cons]
      exact ⟨by decide, by decide, List.chain'_singleton _⟩)
    [dayAB, from_record rC] runLedger_rA_rB_rC
  exact ⟨h.1, h.2 rC2 (by decide) (by decide)⟩

/-!
### Blocks of consecutive same-date readings (C10)

`dateBlocks` renders the spec notion of the maximal blocks of consecutive
readings sharing one date: a reading extends the last block when its
timestamp matches that block's first reading, and otherwise opens a new
block (mirroring the ledger's last-element boundary detection).
`summarizeBlock` aggregates one block in order: seed from its first reading,
absorb the rest.
-/

def blockStep (blocks : List (List SensorRecord)) (r : SensorRecord) :
    List (List SensorRecord) :=
  match blocks.getLast? with
  | some b =>
      if b.head?.map (fun s => s.timestamp) = some r.timestamp then
        blocks.dropLast ++ [b ++ [r]]
      else blocks ++ [[r]]
  | none => blocks ++ [[r]]

def dateBlocks (rs : List SensorRecord) : List (List SensorRecord) :=
  rs.foldl blockStep []

def absorbAll (d : DaySummaryStats) (rs : List SensorRecord) :
    Option DaySummaryStats :=
  rs.foldlM absorb d

def summarizeBlock : List SensorRecord → Option DaySummaryStats
  | [] => none
  | r :: rest => absorbAll (from_record r) rest

theorem absorbAll_concat (d : DaySummaryStats) (rs : List SensorRecord)
    (r : SensorRecord) :
    absorbAll d (rs ++ [r]) = (absorbAll d rs).bind (fun d' => absorb d' r) := by
  simp [absorbAll, List.foldlM_append, List.foldlM_cons, List.foldlM_nil,
    Option.bind_eq_bind]

theorem absorbAll_date (rs : List SensorRecord) :
    ∀ d d' : DaySummaryStats, absorbAll d rs = some d' → d'.date = d.date := by
  induction rs with
  | nil =>
    intro d d' h
    injection h with h
    subst h
    rfl
  | cons r rest ih =>
    intro d d' h
    rw [show absorbAll d (r :: rest)
      = (absorb d r).bind (fun d1 => absorbAll d1 rest) by
        simp [absorbAll, List.foldlM_cons, Option.bind_eq_bind]] at h
    obtain ⟨d1, hd1, h2⟩ := Option.bind_eq_some.mp h
    exact (ih d1 d' h2).trans (absorb_spec _ _ _ hd1).1

theorem summarizeBlock_date (r : SensorRecord) (rest : List SensorRecord)
    (d : DaySummaryStats) (h : summarizeBlock (r :: rest) = some d) :
    d.date = r.timestamp :=
  (absorbAll_date rest (from_record r) d h).trans rfl

theorem forall₂_eq_nil_or_concat {α β : Type} {R : α → β → Prop} :
    ∀ {as : List α} {bs : List β}, List.Forall₂ R as bs →
      (as = [] ∧ bs = []) ∨
        ∃ as₀ a bs₀ b, as = as₀ ++ [a] ∧ bs = bs₀ ++ [b] ∧ R a b ∧
          List.Forall₂ R as₀ bs₀ := by
  intro as bs h
  induction h with
  | nil => exact Or.inl ⟨rfl, rfl⟩
  | @cons a b as' bs' hab htail ih =>
    right
    rcases ih with ⟨rfl, rfl⟩ | ⟨as₀, a', bs₀, b', rfl, rfl, hab', htail'⟩
    · exact ⟨[], a, [], b, rfl, rfl, hab, List.Forall₂.nil⟩
    · exact ⟨a :: as₀, a', b :: bs₀, b', rfl, rfl, hab',
        List.Forall₂.cons hab htail'⟩

theorem blockStep_nil (r : SensorRecord) : blockStep [] r = [[r]] := rfl

theorem blockStep_extend (blocks : List (List SensorRecord))
    (b : List SensorRecord) (r : SensorRecord)
    (hlast : blocks.getLast? = some b)
    (hcond : b.head?.map (fun s => s.timestamp) = some r.timestamp) :
    blockStep blocks r = blocks.dropLast ++ [b ++ [r]] := by
  unfold blockStep
  rw [hlast]
  exact if_pos hcond

theorem blockStep_push (blocks : List (List SensorRecord))
    (b : List SensorRecord) (r : SensorRecord)
    (hlast : blocks.getLast? = some b)
    (hcond : b.head?.map (fun s => s.timestamp) ≠ some r.timestamp) :
    blockStep blocks r = blocks ++ [[r]] := by
  unfold blockStep
  rw [hlast]
  exact if_neg hcond

theorem blockStep_sim (blocks : List (List SensorRecord))
    (days days₁ : List DaySummaryStats) (r : SensorRecord)
    (hrel : List.Forall₂ (fun b d => summarizeBlock b = some d) blocks days)
    (h : add_record days r = some days₁) :
    List.Forall₂ (fun b d => summarizeBlock b = some d)
      (blockStep blocks r) days₁ := by
  rcases forall₂_eq_nil_or_concat hrel with ⟨rfl, rfl⟩ |
    ⟨bs₀, b, ds₀, d, rfl, rfl, hbd, hrest⟩
  · rw [add_record_nil] at h
    injection h with h
    subst h
    rw [blockStep_nil]
    exact List.Forall₂.cons
      (show summarizeBlock [r] = some (from_record r) from rfl)
      List.Forall₂.nil
  · obtain ⟨rb, btail, rfl⟩ : ∃ rb btail, b = rb :: btail := by
      cases b with
      | nil => exact absurd hbd (by simp [summarizeBlock])
      | cons rb btail => exact ⟨rb, btail, rfl⟩
    have hdate : d.date = rb.timestamp := summarizeBlock_date _ _ _ hbd
    have hlastd : (ds₀ ++ [d]).getLast? = some d := List.getLast?_concat _
    by_cases hc : rb.timestamp = r.timestamp
    · rw [add_record_absorb _ d r hlastd (by rw [hdate]; exact hc)] at h
      obtain ⟨d₂, habs, rfl⟩ := Option.map_eq_some'.mp h
      rw [blockStep_extend _ (rb :: btail) r (List.getLast?_concat _)
        (by simp [hc]), List.dropLast_concat, List.dropLast_concat]
      refine List.rel_append hrest (List.Forall₂.cons ?_ List.Forall₂.nil)
      rw [show (rb :: btail) ++ [r] = rb :: (btail ++ [r]) from rfl]
      show absorbAll (from_record rb) (btail ++ [r]) = some d₂
      rw [absorbAll_concat,
        show absorbAll (from_record rb) btail = some d from hbd,
        Option.some_bind]
      exact habs
    · rw [add_record_push _ d r hlastd (by rw [hdate]; exact hc)] at h
      injection h with h
      subst h
      rw [blockStep_push _ (rb :: btail) r (List.getLast?_concat _)
        (by simp [hc])]
      exact List.rel_append hrel (List.Forall₂.cons
        (show summarizeBlock [r] = some (from_record r) from rfl)
        List.Forall₂.nil)

theorem runFrom_blocks (rs : List SensorRecord) :
    ∀ (blocks : List (List SensorRecord)) (days days' : List DaySummaryStats),
      runFrom days rs = some days' →
      List.Forall₂ (fun b d => summarizeBlock b = some d) blocks days →
      List.Forall₂ (fun b d => summarizeBlock b = some d)
        (rs.foldl blockStep blocks) days' := by
  induction rs with
  | nil =>
    intro blocks days days' h hrel
    rw [runFrom_nil] at h
    injection h with h
    subst h
    exact hrel
  | cons r rest ih =>
    intro blocks days days' h hrel
    rw [runFrom_cons] at h
    obtain ⟨days1, hd1, h2⟩ := Option.bind_eq_some.mp h
    rw [List.foldl_cons]
    exact ih _ days1 days' h2 (blockStep_sim blocks days days1 r hrel hd1)

theorem blockStep_flatten (blocks : List (List SensorRecord))
    (r : SensorRecord) :
    (blockStep blocks r).flatten = blocks.flatten ++ [r] := by
  cases hlast : blocks.getLast? with
  | none =>
    rw [show blockStep blocks r = blocks ++ [[r]] by
      unfold blockStep; rw [hlast]]
    simp [List.flatten_append]
  | some b =>
    by_cases hcond : b.head?.map (fun s => s.timestamp) = some r.timestamp
    · rw [blockStep_extend blocks b r hlast hcond]
      conv_rhs => rw [← List.dropLast_append_getLast? b hlast]
      simp [List.flatten_append]
    · rw [blockStep_push blocks b r hlast hcond]
      simp [List.flatten_append]

theorem foldl_blockStep_flatten (rs : List SensorRecord) :
    ∀ blocks : List (List SensorRecord),
      (rs.foldl blockStep blocks).flatten = blocks.flatten ++ rs := by
  induction rs with
  | nil => intro blocks; simp
  | cons r rest ih =>
    intro blocks
    rw [List.foldl_cons, ih, blockStep_flatten]
    simp

theorem dateBlocks_flatten (rs : List SensorRecord) :
    (dateBlocks rs).flatten = rs := by
  rw [dateBlocks, foldl_blockStep_flatten]
  rfl

/-- Well-formedness of a block list: blocks are non-empty, all readings in a
block share the block's first timestamp, and adjacent blocks start with
different timestamps (so blocks are maximal). -/
def blocksWF (blocks : List (List SensorRecord)) : Prop :=
  (∀ b ∈ blocks, b ≠ []) ∧
    (∀ b ∈ blocks, ∀ h0 ∈ b.head?, ∀ s ∈ b, s.timestamp = h0.timestamp) ∧
    List.Chain' (fun b c => ∀ hb ∈ b.head?, ∀ hc ∈ c.head?,
      hb.timestamp ≠ hc.timestamp) blocks

theorem blockStep_wf (blocks : List (List SensorRecord)) (r : SensorRecord)
    (hg : blocksWF blocks) : blocksWF (blockStep blocks r) := by
  obtain ⟨hne, hsame, hadj⟩ := hg
  cases hlast : blocks.getLast? with
  | none =>
    have hb : blocks = [] := List.getLast?_eq_none_iff.mp hlast
    subst hb
    rw [blockStep_nil]
    refine ⟨by simp, ?_, List.chain'_singleton _⟩
    intro b hb h0 hh0 s hs
    rw [List.mem_singleton] at hb
    subst hb
    rw [show ([r] : List SensorRecord).head? = some r from rfl,
      Option.mem_some_iff] at hh0
    rw [List.mem_singleton] at hs
    rw [hs, ← hh0]
  | some b =>
    obtain ⟨rb, btail, rfl⟩ : ∃ rb btail, b = rb :: btail := by
      cases b with
      | nil => exact absurd rfl (hne [] (List.mem_of_mem_getLast? hlast))
      | cons rb btail => exact ⟨rb, btail, rfl⟩
    have hbmem : rb :: btail ∈ blocks := List.mem_of_mem_getLast? hlast
    by_cases hcond : (rb :: btail).head?.map (fun s => s.timestamp)
        = some r.timestamp
    · have hts : rb.timestamp = r.timestamp := by
        simpa using hcond
      rw [blockStep_extend blocks (rb :: btail) r hlast hcond]
      refine ⟨?_, ?_, ?_⟩
      · intro c hc
        rcases List.mem_append.mp hc with hc | hc
        · exact hne c ((List.dropLast_sublist blocks).subset hc)
        · rw [List.mem_singleton] at hc
          subst hc
          simp
      · intro c hc h0 hh0 s hs
        rcases List.mem_append.mp hc with hc | hc
        · exact hsame c ((List.dropLast_sublist blocks).subset hc) h0 hh0 s hs
        · rw [List.mem_singleton] at hc
          subst hc
          rw [show ((rb :: btail) ++ [r]).head? = some rb from rfl,
            Option.mem_some_iff] at hh0
          subst hh0
          rcases List.mem_append.mp hs with hs | hs
          · exact hsame (rb :: btail) hbmem rb rfl s hs
          · rw [List.mem_singleton] at hs
            subst hs
            exact hts.symm
      · have hadj' := hadj
        conv at hadj' => rw [← List.dropLast_append_getLast? (rb :: btail) hlast]
        rw [List.chain'_append] at hadj'
        rw [List.chain'_append]
        refine ⟨hadj'.1, List.chain'_singleton _, ?_⟩
        intro x hx y hy
        rw [show ([(rb :: btail) ++ [r]] : List (List SensorRecord)).head?
          = some ((rb :: btail) ++ [r]) from rfl, Option.mem_some_iff] at hy
        subst hy
        intro hb0 hhb0 hc0 hhc0
        rw [show ((rb :: btail) ++ [r]).head? = some rb from rfl,
          Option.mem_some_iff] at hhc0
        subst hhc0
        exact hadj'.2.2 x hx (rb :: btail) rfl hb0 hhb0 rb rfl
    · have hts : rb.timestamp ≠ r.timestamp := by
        simpa using hcond
      rw [blockStep_push blocks (rb :: btail) r hlast hcond]
      refine ⟨?_, ?_, ?_⟩
      · intro c hc
        rcases List.mem_append.mp hc with hc | hc
        · exact hne c hc
        · rw [List.mem_singleton] at hc
          subst hc
          simp
      · intro c hc h0 hh0 s hs
        rcases List.mem_append.mp hc with hc | hc
        · exact hsame c hc h0 hh0 s hs
        · rw [List.mem_singleton] at hc
          subst hc
          rw [show ([r] : List SensorRecord).head? = some r from rfl,
            Option.mem_some_iff] at hh0
          subst hh0
          rw [List.mem_singleton] at hs
          rw [hs]
      · rw [List.chain'_append]
        refine ⟨hadj, List.chain'_singleton _, ?_⟩
        intro x hx y hy
        rw [show ([[r]] : List (List SensorRecord)).head? = some [r] from rfl,
          Option.mem_some_iff] at hy
        subst hy
        rw [hlast, Option.mem_some_iff] at hx
        subst hx
        intro hb0 hhb0 hc0 hhc0
        rw [show (rb :: btail).head? = some rb from rfl,
          Option.mem_some_iff] at hhb0
        subst hhb0
        rw [show ([r] : List SensorRecord).head? = some r from rfl,
          Option.mem_some_iff] at hhc0
        subst hhc0
        exact hts

theorem foldl_blockStep_wf (rs : List SensorRecord) :
    ∀ blocks : List (List SensorRecord), blocksWF blocks →
      blocksWF (rs.foldl blockStep blocks) := by
  induction rs with
  | nil => intro blocks hg; exact hg
  | cons r rest ih =>
    intro blocks hg
    rw [List.foldl_cons]
    exact ih _ (blockStep_wf blocks r hg)

theorem dateBlocks_wf (rs : List SensorRecord) : blocksWF (dateBlocks rs) :=
  foldl_blockStep_wf rs [] ⟨by simp, by simp, List.chain'_nil⟩

/-- C10: for every finite sequence of readings folded through `add_record`,
the number of DaySummary elements in the final ledger equals the number of
maximal blocks of consecutive readings sharing the same date, and the i-th
summary aggregates exactly the readings of the i-th block in their original
order (seed from the block's first reading, absorb the rest in order).
The last three conjuncts certify that `dateBlocks` is exactly that block
decomposition: the blocks concatenate back to the input, every block is a
non-empty run of one date, and adjacent blocks carry different dates. -/
theorem claim_c10_block_decomposition (rs : List SensorRecord)
    (days : List DaySummaryStats) (h : runLedger rs = some days) :
    days.length = (dateBlocks rs).length ∧
      List.Forall₂ (fun b d => summarizeBlock b = some d) (dateBlocks rs) days ∧
      (dateBlocks rs).flatten = rs ∧
      (∀ b ∈ dateBlocks rs, b ≠ []) ∧
      (∀ b ∈ dateBlocks rs, ∀ h0 ∈ b.head?, ∀ s ∈ b,
        s.timestamp = h0.timestamp) ∧
      List.Chain' (fun b c => ∀ hb ∈ b.head?, ∀ hc ∈ c.head?,
        hb.timestamp ≠ hc.timestamp) (dateBlocks rs) := by
  have hrel : List.Forall₂ (fun b d => summarizeBlock b = some d)
      (dateBlocks rs) days :=
    runFrom_blocks rs [] [] days h List.Forall₂.nil
  have hwf := dateBlocks_wf rs
  exact ⟨hrel.length_eq.symm, hrel, dateBlocks_flatten rs, hwf.1, hwf.2.1,
    hwf.2.2⟩

/-- Witness for C10 at the concrete input `[rA, rB, rC]` (blocks
`[[rA, rB], [rC]]`, summaries `[dayAB, from_record rC]`). -/
theorem claim_c10_witness :
    [dayAB, from_record rC].length = (dateBlocks [rA, rB, rC]).length ∧
      List.Forall₂ (fun b d => summarizeBlock b = some d)
        (dateBlocks [rA, rB, rC]) [dayAB, from_record rC] :=
  ⟨(claim_c10_block_decomposition [rA, rB, rC] [dayAB, from_record rC]
      runLedger_rA_rB_rC).1,
    (claim_c10_block_decomposition [rA, rB, rC] [dayAB, from_record rC]
      runLedger_rA_rB_rC).2.1⟩
